import Mathlib

/-!
Verification of the CRV backtest verifier (`crates/crv_verifier/src/verifier.rs`)
against its natural-language specification.

The verifier code is embedded shallowly: `f64` becomes the inductive `FP`
(an exact rational, a signed infinity, or NaN, with IEEE-style comparison
and propagation rules), slices become lists, and the `anyhow::Result`
return type becomes `Except String`.  The report/violation data model and
the input record types live in crates that are not part of the verifier
source; they are modelled from the specification, as marked on each
definition.
-/

/-- Shallow model of Rust `f64` as used by the verifier: an exact rational
value, a signed infinity (`inf true` is `+∞`), or NaN.  Every comparison
involving NaN is false and NaN propagates through arithmetic, as in
IEEE 754; finite decimal literals of the source are taken at their exact
rational value (no claim depends on representation rounding, since all
thresholds are compared with strict inequalities far from the inputs
used). -/
inductive FP where
  | nan : FP
  | inf : Bool → FP
  | fin : ℚ → FP
deriving DecidableEq

/-- Strict `<` on model floats; any comparison involving NaN is false. -/
def FP.lt : FP → FP → Bool
  | .nan, _ => false
  | _, .nan => false
  | .inf false, .inf false => false
  | .inf false, _ => true
  | _, .inf false => false
  | .inf true, _ => false
  | _, .inf true => true
  | .fin a, .fin b => decide (a < b)

/-- Strict `>` on model floats (argument-flipped `FP.lt`). -/
def FP.gt (a b : FP) : Bool := FP.lt b a

/-- Model of `f64::is_finite`. -/
def FP.isFinite : FP → Bool
  | .fin _ => true
  | _ => false

/-- Model of `f64::abs`; `abs NaN = NaN`. -/
def FP.abs : FP → FP
  | .nan => .nan
  | .inf _ => .inf true
  | .fin a => .fin |a|

/-- Model of `f64` subtraction with NaN propagation and `∞ - ∞ = NaN`. -/
def FP.sub : FP → FP → FP
  | .nan, _ => .nan
  | _, .nan => .nan
  | .inf a, .inf b => if a = b then .nan else .inf a
  | .inf a, .fin _ => .inf a
  | .fin _, .inf b => .inf (!b)
  | .fin a, .fin b => .fin (a - b)

/-- Model of `f64` division with NaN propagation, `∞/∞ = NaN`, `x/∞ = 0`,
`x/0 = ±∞` and `0/0 = NaN`. -/
def FP.div : FP → FP → FP
  | .nan, _ => .nan
  | _, .nan => .nan
  | .inf _, .inf _ => .nan
  | .inf a, .fin b => .inf (a == decide (0 ≤ b))
  | .fin _, .inf _ => .fin 0
  | .fin a, .fin b =>
    if b = 0 then (if a = 0 then .nan else .inf (decide (0 < a))) else .fin (a / b)

/-- Modelled from the spec: trade side of a `Fill` (the `schema` crate is
not under the verifier source). -/
inductive Side where
  | buy : Side
  | sell : Side
deriving DecidableEq

/-- Modelled from the spec: one executed trade produced by the upstream
backtest engine (the `schema` crate is not under the verifier source):
timestamp, symbol, side, quantity, price, commission. -/
structure Fill where
  timestamp : Int
  symbol : String
  side : Side
  quantity : FP
  price : FP
  commission : FP
deriving DecidableEq

/-- Modelled from the spec: scalar backtest summary record (the `schema`
crate is not under the verifier source): initial/final equity, total
return, trade count, total commission, Sharpe ratio, max drawdown. -/
structure BacktestStats where
  initial_equity : FP
  final_equity : FP
  total_return : FP
  num_trades : Nat
  total_commission : FP
  sharpe_ratio : FP
  max_drawdown : FP
deriving DecidableEq

/-- Modelled from the spec: enumerated rule identifier (`types.rs` of the
`crv_verifier` crate is not under src); the variants are exactly those
referenced by `verifier.rs`. -/
inductive RuleId where
  | sharpeRatioValidation : RuleId
  | maxDrawdownValidation : RuleId
  | lookaheadBias : RuleId
  | maxDrawdownConstraint : RuleId
  | maxLeverageConstraint : RuleId
deriving DecidableEq

/-- Modelled from the spec: severity levels, ordered
Critical > High > Medium > Low (`types.rs` is not under src). -/
inductive Severity where
  | low : Severity
  | medium : Severity
  | high : Severity
  | critical : Severity
deriving DecidableEq

/-- Structured model of the human-readable `message` strings built with
`format!` in `verifier.rs`: one constructor per message site, carrying the
values interpolated at that site (decimal formatting of floats is not
modelled, the formatted values are). -/
inductive Msg where
  | sharpeUnrealistic (sharpe : FP) : Msg
  | ddOutOfBounds (md : FP) : Msg
  | ddMismatch (reported computed : FP) : Msg
  | fillInvalidTimestamp : Msg
  | fillsNotChronological : Msg
  | equityNotChronological : Msg
  | ddExceedsLimit (observed limit : FP) : Msg
  | negativeEquity : Msg
deriving DecidableEq

/-- Structured model of the evidence strings built in `verifier.rs`: one
constructor per evidence site, carrying the interpolated values. -/
inductive Ev where
  | sharpeRareNote : Ev
  | sharpeAnnualizationNote : Ev
  | ddBoundsNote : Ev
  | ddDifference (diff : FP) : Ev
  | fillTimestamp (i : Nat) (t : Int) : Ev
  | fillOrder (i : Nat) (ti : Int) (j : Nat) (tj : Int) : Ev
  | equityOrder (i : Nat) (ti : Int) (j : Nat) (tj : Int) : Ev
  | ddObserved (v : FP) : Ev
  | ddLimit (v : FP) : Ev
  | negEquityPoint (i : Nat) (t : Int) (e : FP) : Ev
  | maxLeverageLimit (v : FP) : Ev
deriving DecidableEq

/-- Modelled from the spec: a violation record — rule identifier, severity,
human-readable message and ordered evidence list (`types.rs` is not under
src; message and evidence strings are modelled structurally). -/
structure CRVViolation where
  rule_id : RuleId
  severity : Severity
  message : Msg
  evidence : List Ev
deriving DecidableEq

/-- Modelled from the spec: the report — generation timestamp (last
equity-history timestamp or 0) plus the ordered violation list
(`types.rs` is not under src). -/
structure CRVReport where
  timestamp : Int
  violations : List CRVViolation
deriving DecidableEq

/-- Modelled from the spec: a fresh report with the given timestamp and no
violations. -/
def CRVReport.new (timestamp : Int) : CRVReport :=
  ⟨timestamp, []⟩

/-- Modelled from the spec: append one violation to the report. -/
def CRVReport.add_violation (r : CRVReport) (v : CRVViolation) : CRVReport :=
  { r with violations := r.violations ++ [v] }

/-- Modelled from the spec: `passed` is the derived property that the
violation list is empty, never stored independently. -/
def CRVReport.passed (r : CRVReport) : Bool :=
  r.violations.isEmpty

/-- Modelled from the spec: derived violation count accessor. -/
def CRVReport.violation_count (r : CRVReport) : Nat :=
  r.violations.length

/-- Policy constraints for verification (verifier.rs lines 6-11). -/
structure PolicyConstraints where
  max_drawdown : Option FP
  max_leverage : Option FP
  max_turnover : Option FP
deriving DecidableEq

/-- Default policy constraints (verifier.rs lines 13-21): 25% max drawdown,
2x max leverage, no turnover limit. -/
def PolicyConstraints.default : PolicyConstraints :=
  { max_drawdown := some (FP.fin (1/4))
    max_leverage := some (FP.fin 2)
    max_turnover := none }

/-- Main CRV verifier that checks backtest results for correctness
(verifier.rs lines 24-26). -/
structure CRVVerifier where
  constraints : PolicyConstraints

/-- Constructor `CRVVerifier::new` (verifier.rs lines 29-31). -/
def CRVVerifier.new (constraints : PolicyConstraints) : CRVVerifier :=
  ⟨constraints⟩

/-- Constructor `CRVVerifier::with_defaults` (verifier.rs lines 33-35). -/
def CRVVerifier.with_defaults : CRVVerifier :=
  CRVVerifier.new PolicyConstraints.default

/-- The violation built at verifier.rs lines 69-80 (unrealistic Sharpe). -/
def sharpeV (sharpe : FP) : CRVViolation :=
  ⟨.sharpeRatioValidation, .medium, .sharpeUnrealistic sharpe,
    [.sharpeRareNote, .sharpeAnnualizationNote]⟩

/-- The violation built at verifier.rs lines 86-96 (drawdown out of bounds). -/
def boundsV (md : FP) : CRVViolation :=
  ⟨.maxDrawdownValidation, .critical, .ddOutOfBounds md, [.ddBoundsNote]⟩

/-- The violation built at verifier.rs lines 103-113 (drawdown mismatch). -/
def mismatchV (reported computed diff : FP) : CRVViolation :=
  ⟨.maxDrawdownValidation, .high, .ddMismatch reported computed, [.ddDifference diff]⟩

/-- The violation built at verifier.rs lines 129-136 (invalid fill timestamp). -/
def fillTsV (i : Nat) (t : Int) : CRVViolation :=
  ⟨.lookaheadBias, .critical, .fillInvalidTimestamp, [.fillTimestamp i t]⟩

/-- The violation built at verifier.rs lines 143-154 (fills out of order). -/
def fillOrdV (i : Nat) (ti tj : Int) : CRVViolation :=
  ⟨.lookaheadBias, .critical, .fillsNotChronological, [.fillOrder i ti (i - 1) tj]⟩

/-- The violation built at verifier.rs lines 161-172 (equity history out of order). -/
def eqOrdV (i : Nat) (ti tj : Int) : CRVViolation :=
  ⟨.lookaheadBias, .critical, .equityNotChronological, [.equityOrder i ti (i - 1) tj]⟩

/-- The violation built at verifier.rs lines 189-201 (drawdown over limit). -/
def ddConV (observed limit : FP) : CRVViolation :=
  ⟨.maxDrawdownConstraint, .high, .ddExceedsLimit observed limit,
    [.ddObserved observed, .ddLimit limit]⟩

/-- The violation built at verifier.rs lines 209-217 (negative equity). -/
def levV (i : Nat) (t : Int) (e L : FP) : CRVViolation :=
  ⟨.maxLeverageConstraint, .critical, .negativeEquity,
    [.negEquityPoint i t e, .maxLeverageLimit L]⟩

/-- Helper: compute max drawdown from equity history
(verifier.rs lines 227-248): start the running peak at the first equity
value, scan the whole history updating the peak and, while the peak is
positive, the running maximum of `(peak - equity) / peak`. -/
def compute_max_drawdown (equity_history : List (Int × FP)) : FP :=
  match equity_history with
  | [] => FP.fin 0
  | first :: rest =>
    ((first :: rest).foldl
      (fun s q =>
        let max_equity := if FP.gt q.2 s.1 then q.2 else s.1
        let max_drawdown :=
          if FP.gt max_equity (FP.fin 0) then
            let drawdown := FP.div (FP.sub max_equity q.2) max_equity
            if FP.gt drawdown s.2 then drawdown else s.2
          else s.2
        (max_equity, max_drawdown))
      (first.2, FP.fin 0)).2

/-- Check metric calculations for correctness (verifier.rs lines 57-117):
Sharpe plausibility, drawdown bounds, and drawdown recomputation against a
fixed absolute tolerance of 0.01. -/
def CRVVerifier.check_metric_correctness (self : CRVVerifier) (stats : BacktestStats)
    (equity_history : List (Int × FP)) (report : CRVReport) : Except String CRVReport :=
  let report :=
    if stats.sharpe_ratio.isFinite && FP.gt stats.sharpe_ratio.abs (FP.fin 0) then
      if FP.gt stats.sharpe_ratio.abs (FP.fin 10) then
        report.add_violation (sharpeV stats.sharpe_ratio)
      else report
    else report
  let report :=
    if FP.lt stats.max_drawdown (FP.fin 0) || FP.gt stats.max_drawdown (FP.fin 1) then
      report.add_violation (boundsV stats.max_drawdown)
    else report
  let computed_dd := compute_max_drawdown equity_history
  let dd_diff := FP.abs (FP.sub stats.max_drawdown computed_dd)
  let report :=
    if FP.gt dd_diff (FP.fin (1/100)) then
      report.add_violation (mismatchV stats.max_drawdown computed_dd dd_diff)
    else report
  .ok report

/-- Check for lookahead bias (verifier.rs lines 120-177): fill timestamp
validity, fill chronological order, equity-history chronological order.
The index-based loops `for i in 1..len` comparing element `i` with
element `i-1` are embedded as folds over `(l.drop 1).zip l` with the
running index recovered from `enum`. -/
def CRVVerifier.check_lookahead_bias (self : CRVVerifier) (fills : List Fill)
    (equity_history : List (Int × FP)) (report : CRVReport) : Except String CRVReport :=
  let report := fills.enum.foldl
    (fun r p => if p.2.timestamp ≤ 0 then r.add_violation (fillTsV p.1 p.2.timestamp) else r)
    report
  let report := ((fills.drop 1).zip fills).enum.foldl
    (fun r p =>
      if p.2.1.timestamp < p.2.2.timestamp then
        r.add_violation (fillOrdV (p.1 + 1) p.2.1.timestamp p.2.2.timestamp)
      else r)
    report
  let report := ((equity_history.drop 1).zip equity_history).enum.foldl
    (fun r p =>
      if p.2.1.1 < p.2.2.1 then
        r.add_violation (eqOrdV (p.1 + 1) p.2.1.1 p.2.2.1)
      else r)
    report
  .ok report

/-- Check policy constraints (verifier.rs lines 180-224): reported max
drawdown against the configured bound, and — when a max-leverage bound is
configured — a scan for the first negative-equity point, reporting once
(the Rust loop breaks after the first hit, embedded via `find?`). -/
def CRVVerifier.check_policy_constraints (self : CRVVerifier) (stats : BacktestStats)
    (equity_history : List (Int × FP)) (report : CRVReport) : Except String CRVReport :=
  let report :=
    match self.constraints.max_drawdown with
    | some max_dd =>
      if FP.gt stats.max_drawdown max_dd then
        report.add_violation (ddConV stats.max_drawdown max_dd)
      else report
    | none => report
  let report :=
    match self.constraints.max_leverage with
    | some max_leverage =>
      match equity_history.enum.find? (fun p => FP.lt p.2.2 (FP.fin 0)) with
      | some p => report.add_violation (levV p.1 p.2.1 p.2.2 max_leverage)
      | none => report
    | none => report
  .ok report

/-- Verify backtest results and generate a CRV report
(verifier.rs lines 38-54). -/
def CRVVerifier.verify (self : CRVVerifier) (stats : BacktestStats) (fills : List Fill)
    (equity_history : List (Int × FP)) : Except String CRVReport := do
  let report := CRVReport.new ((equity_history.getLast?.map Prod.fst).getD 0)
  let report ← self.check_metric_correctness stats equity_history report
  let report ← self.check_lookahead_bias fills equity_history report
  let report ← self.check_policy_constraints stats equity_history report
  return report

/-- Extract the report from the `Result`-typed return value of `verify`
(total: the error branch never occurs, see `verify_never_fails`). -/
def reportOf : Except String CRVReport → CRVReport
  | .ok r => r
  | .error _ => CRVReport.new 0

/-- The running-peak max-drawdown algorithm exactly as the specification
words it: maintain the maximum equity seen so far, at each point compute
`(peak - equity) / peak` when the peak is positive, take the running
maximum of this ratio across the whole sequence. -/
def specDrawdownLoop : List FP → Option FP → FP → FP
  | [], _, best => best
  | e :: rest, peakSoFar, best =>
    let peak :=
      match peakSoFar with
      | none => e
      | some p => if FP.gt e p then e else p
    let best' :=
      if FP.gt peak (FP.fin 0) then
        let ratio := FP.div (FP.sub peak e) peak
        if FP.gt ratio best then ratio else best
      else best
    specDrawdownLoop rest (some peak) best'

/-- Max drawdown as the specification describes it: run the running-peak
loop over the equity values, with an empty sequence yielding 0. -/
def spec_max_drawdown (equity_history : List (Int × FP)) : FP :=
  specDrawdownLoop (equity_history.map Prod.snd) none (FP.fin 0)

/-- Number of adjacent inversions of a timestamp sequence: positions whose
successor carries a strictly smaller timestamp. -/
def adjInversions (ts : List Int) : Nat :=
  (ts.zip ts.tail).countP (fun p => decide (p.2 < p.1))

/-- Messages that can be produced by checks reading only the stats record
(Sharpe plausibility, drawdown bounds, drawdown recomputation mismatch,
max-drawdown policy constraint). -/
def statsOnlyMsg : Msg → Bool
  | .sharpeUnrealistic _ => true
  | .ddOutOfBounds _ => true
  | .ddMismatch _ _ => true
  | .ddExceedsLimit _ _ => true
  | _ => false

/-- The violations appended by `check_metric_correctness`, as an explicit
list. -/
def metricViolations (stats : BacktestStats) (equity_history : List (Int × FP)) :
    List CRVViolation :=
  (if stats.sharpe_ratio.isFinite && FP.gt stats.sharpe_ratio.abs (FP.fin 0) then
    if FP.gt stats.sharpe_ratio.abs (FP.fin 10) then [sharpeV stats.sharpe_ratio] else []
  else [])
  ++ (if FP.lt stats.max_drawdown (FP.fin 0) || FP.gt stats.max_drawdown (FP.fin 1) then
    [boundsV stats.max_drawdown]
  else [])
  ++ (if FP.gt (FP.abs (FP.sub stats.max_drawdown (compute_max_drawdown equity_history)))
        (FP.fin (1/100)) then
    [mismatchV stats.max_drawdown (compute_max_drawdown equity_history)
      (FP.abs (FP.sub stats.max_drawdown (compute_max_drawdown equity_history)))]
  else [])

/-- The violations appended by `check_lookahead_bias`, as an explicit list. -/
def lookaheadViolations (fills : List Fill) (equity_history : List (Int × FP)) :
    List CRVViolation :=
  ((fills.enum.filter (fun p => decide (p.2.timestamp ≤ 0))).map
    (fun p => fillTsV p.1 p.2.timestamp))
  ++ ((((fills.drop 1).zip fills).enum.filter
        (fun p => decide (p.2.1.timestamp < p.2.2.timestamp))).map
    (fun p => fillOrdV (p.1 + 1) p.2.1.timestamp p.2.2.timestamp))
  ++ ((((equity_history.drop 1).zip equity_history).enum.filter
        (fun p => decide (p.2.1.1 < p.2.2.1))).map
    (fun p => eqOrdV (p.1 + 1) p.2.1.1 p.2.2.1))

/-- The violation (if any) appended by the max-drawdown constraint check. -/
def ddConViolations (c : PolicyConstraints) (stats : BacktestStats) : List CRVViolation :=
  match c.max_drawdown with
  | some max_dd =>
    if FP.gt stats.max_drawdown max_dd then [ddConV stats.max_drawdown max_dd] else []
  | none => []

/-- The violation (if any) appended by the leverage/solvency check. -/
def levViolations (c : PolicyConstraints) (equity_history : List (Int × FP)) :
    List CRVViolation :=
  match c.max_leverage with
  | some max_leverage =>
    match equity_history.enum.find? (fun p => FP.lt p.2.2 (FP.fin 0)) with
    | some p => [levV p.1 p.2.1 p.2.2 max_leverage]
    | none => []
  | none => []

/-- The violations appended by `check_policy_constraints`, as an explicit
list. -/
def policyViolations (c : PolicyConstraints) (stats : BacktestStats)
    (equity_history : List (Int × FP)) : List CRVViolation :=
  ddConViolations c stats ++ levViolations c equity_history

theorem FP.lt_self (a : FP) : FP.lt a a = false := by
  cases a with
  | nan => rfl
  | inf b => cases b <;> rfl
  | fin q => simp [FP.lt]

theorem add_violation_eq (r : CRVReport) (v : CRVViolation) :
    r.add_violation v = ⟨r.timestamp, r.violations ++ [v]⟩ := rfl

theorem fold_fillTs_eq (l : List (Nat × Fill)) : ∀ r : CRVReport,
    l.foldl (fun r p => if p.2.timestamp ≤ 0 then r.add_violation (fillTsV p.1 p.2.timestamp) else r) r
      = ⟨r.timestamp, r.violations ++ (l.filter (fun p => decide (p.2.timestamp ≤ 0))).map
          (fun p => fillTsV p.1 p.2.timestamp)⟩ := by
  induction l with
  | nil => intro r; simp
  | cons a t ih =>
    intro r
    rw [List.foldl_cons, List.filter_cons]
    by_cases h : a.2.timestamp ≤ 0
    · rw [if_pos h, ih]
      simp [CRVReport.add_violation, h]
    · rw [if_neg h, ih]
      simp [h]

theorem fold_fillOrd_eq (l : List (Nat × (Fill × Fill))) : ∀ r : CRVReport,
    l.foldl (fun r p =>
        if p.2.1.timestamp < p.2.2.timestamp then
          r.add_violation (fillOrdV (p.1 + 1) p.2.1.timestamp p.2.2.timestamp)
        else r) r
      = ⟨r.timestamp, r.violations
          ++ (l.filter (fun p => decide (p.2.1.timestamp < p.2.2.timestamp))).map
            (fun p => fillOrdV (p.1 + 1) p.2.1.timestamp p.2.2.timestamp)⟩ := by
  induction l with
  | nil => intro r; simp
  | cons a t ih =>
    intro r
    rw [List.foldl_cons, List.filter_cons]
    by_cases h : a.2.1.timestamp < a.2.2.timestamp
    · rw [if_pos h, ih]
      simp [CRVReport.add_violation, h]
    · rw [if_neg h, ih]
      simp [h]

theorem fold_eqOrd_eq (l : List (Nat × ((Int × FP) × (Int × FP)))) : ∀ r : CRVReport,
    l.foldl (fun r p =>
        if p.2.1.1 < p.2.2.1 then
          r.add_violation (eqOrdV (p.1 + 1) p.2.1.1 p.2.2.1)
        else r) r
      = ⟨r.timestamp, r.violations
          ++ (l.filter (fun p => decide (p.2.1.1 < p.2.2.1))).map
            (fun p => eqOrdV (p.1 + 1) p.2.1.1 p.2.2.1)⟩ := by
  induction l with
  | nil => intro r; simp
  | cons a t ih =>
    intro r
    rw [List.foldl_cons, List.filter_cons]
    by_cases h : a.2.1.1 < a.2.2.1
    · rw [if_pos h, ih]
      simp [CRVReport.add_violation, h]
    · rw [if_neg h, ih]
      simp [h]

theorem bind_ok_eq {α β : Type} (x : α) (f : α → Except String β) :
    (Except.ok x >>= f) = f x := rfl

theorem check_metric_eq (v : CRVVerifier) (stats : BacktestStats)
    (equity_history : List (Int × FP)) (r : CRVReport) :
    v.check_metric_correctness stats equity_history r
      = .ok ⟨r.timestamp, r.violations ++ metricViolations stats equity_history⟩ := by
  unfold CRVVerifier.check_metric_correctness metricViolations
  split_ifs <;> simp_all [CRVReport.add_violation]

theorem check_lookahead_eq (v : CRVVerifier) (fills : List Fill)
    (equity_history : List (Int × FP)) (r : CRVReport) :
    v.check_lookahead_bias fills equity_history r
      = .ok ⟨r.timestamp, r.violations ++ lookaheadViolations fills equity_history⟩ := by
  unfold CRVVerifier.check_lookahead_bias lookaheadViolations
  simp only [fold_fillTs_eq, fold_fillOrd_eq, fold_eqOrd_eq]
  simp

theorem check_policy_eq (v : CRVVerifier) (stats : BacktestStats)
    (equity_history : List (Int × FP)) (r : CRVReport) :
    v.check_policy_constraints stats equity_history r
      = .ok ⟨r.timestamp, r.violations ++ policyViolations v.constraints stats equity_history⟩ := by
  unfold CRVVerifier.check_policy_constraints policyViolations ddConViolations levViolations
  cases hdd : v.constraints.max_drawdown with
  | none =>
    cases hlv : v.constraints.max_leverage with
    | none => simp
    | some L =>
      cases hf : equity_history.enum.find? (fun p => FP.lt p.2.2 (FP.fin 0)) <;>
        simp [hf, CRVReport.add_violation]
  | some m =>
    by_cases hgt : FP.gt stats.max_drawdown m = true <;>
    · cases hlv : v.constraints.max_leverage with
      | none => simp [hgt, CRVReport.add_violation]
      | some L =>
        cases hf : equity_history.enum.find? (fun p => FP.lt p.2.2 (FP.fin 0)) <;>
          simp [hf, hgt, CRVReport.add_violation]

theorem verify_eq (v : CRVVerifier) (stats : BacktestStats) (fills : List Fill)
    (equity_history : List (Int × FP)) :
    v.verify stats fills equity_history
      = .ok ⟨(equity_history.getLast?.map Prod.fst).getD 0,
          metricViolations stats equity_history
            ++ lookaheadViolations fills equity_history
            ++ policyViolations v.constraints stats equity_history⟩ := by
  unfold CRVVerifier.verify
  simp only [check_metric_eq, check_lookahead_eq, check_policy_eq, CRVReport.new, bind_ok_eq]
  simp only [List.append_assoc]
  rfl

theorem reportOf_verify (v : CRVVerifier) (stats : BacktestStats) (fills : List Fill)
    (equity_history : List (Int × FP)) :
    reportOf (v.verify stats fills equity_history)
      = ⟨(equity_history.getLast?.map Prod.fst).getD 0,
          metricViolations stats equity_history
            ++ lookaheadViolations fills equity_history
            ++ policyViolations v.constraints stats equity_history⟩ := by
  rw [verify_eq]; rfl

theorem drawdown_loop_eq (l : List (Int × FP)) : ∀ p best : FP,
    (l.foldl
      (fun s q =>
        let max_equity := if FP.gt q.2 s.1 then q.2 else s.1
        let max_drawdown :=
          if FP.gt max_equity (FP.fin 0) then
            let drawdown := FP.div (FP.sub max_equity q.2) max_equity
            if FP.gt drawdown s.2 then drawdown else s.2
          else s.2
        (max_equity, max_drawdown))
      (p, best)).2
    = specDrawdownLoop (l.map Prod.snd) (some p) best := by
  induction l with
  | nil => intro p best; rfl
  | cons a t ih =>
    intro p best
    simp only [List.foldl_cons, List.map_cons, specDrawdownLoop]
    exact ih _ _

theorem compute_eq_spec (equity_history : List (Int × FP)) :
    compute_max_drawdown equity_history = spec_max_drawdown equity_history := by
  cases equity_history with
  | nil => rfl
  | cons a t =>
    have hc : compute_max_drawdown (a :: t)
        = ((a :: t).foldl
            (fun s q =>
              let max_equity := if FP.gt q.2 s.1 then q.2 else s.1
              let max_drawdown :=
                if FP.gt max_equity (FP.fin 0) then
                  let drawdown := FP.div (FP.sub max_equity q.2) max_equity
                  if FP.gt drawdown s.2 then drawdown else s.2
                else s.2
              (max_equity, max_drawdown))
            (a.2, FP.fin 0)).2 := rfl
    rw [hc, drawdown_loop_eq]
    unfold spec_max_drawdown
    simp only [List.map_cons, specDrawdownLoop, ite_self]

theorem countP_enumFrom {α : Type} (q : α → Bool) : ∀ (l : List α) (n : Nat),
    (l.enumFrom n).countP (fun x => q x.2) = l.countP q := by
  intro l
  induction l with
  | nil => intro n; rfl
  | cons a t ih =>
    intro n
    simp only [List.enumFrom_cons, List.countP_cons, ih]

theorem countP_enum {α : Type} (q : α → Bool) (l : List α) :
    l.enum.countP (fun x => q x.2) = l.countP q :=
  countP_enumFrom q l 0

theorem ordPairs_countP {α : Type} (f : α → Int) (l : List α) :
    ((l.drop 1).zip l).countP (fun p => decide (f p.1 < f p.2)) = adjInversions (l.map f) := by
  induction l with
  | nil => rfl
  | cons a t ih =>
    cases t with
    | nil => rfl
    | cons b t2 =>
      unfold adjInversions at ih ⊢
      simp only [List.drop_succ_cons, List.drop_zero, List.map_cons, List.tail_cons,
        List.zip_cons_cons, List.countP_cons] at ih ⊢
      rw [ih]

theorem zip_tail_chain {R : Int → Int → Prop} : ∀ ts : List Int, List.Chain' R ts →
    ∀ p ∈ ts.zip ts.tail, R p.1 p.2 := by
  intro ts
  induction ts with
  | nil => intro _ p hp; simp at hp
  | cons a t ih =>
    intro h p hp
    cases t with
    | nil => simp at hp
    | cons b t2 =>
      rw [List.chain'_cons] at h
      simp only [List.tail_cons, List.zip_cons_cons, List.mem_cons] at hp
      rcases hp with h1 | h2
      · subst h1; exact h.1
      · exact ih h.2 p (by simpa using h2)

theorem adjInversions_of_chain (ts : List Int) (h : List.Chain' (fun a b => a ≤ b) ts) :
    adjInversions ts = 0 := by
  unfold adjInversions
  rw [List.countP_eq_zero]
  intro p hp
  have := zip_tail_chain ts h p hp
  simp
  omega

theorem mem_enumFrom_of_mem {α : Type} (a : α) : ∀ (l : List α) (n : Nat), a ∈ l →
    ∃ i, (i, a) ∈ l.enumFrom n := by
  intro l
  induction l with
  | nil => intro n h; simp at h
  | cons b t ih =>
    intro n h
    rcases List.mem_cons.mp h with h1 | h2
    · exact ⟨n, by simp [h1]⟩
    · rcases ih (n + 1) h2 with ⟨i, hi⟩
      exact ⟨i, by simp [hi]⟩

theorem snd_mem_of_mem_enumFrom {α : Type} (x : Nat × α) : ∀ (l : List α) (n : Nat),
    x ∈ l.enumFrom n → x.2 ∈ l := by
  intro l
  induction l with
  | nil => intro n h; simp at h
  | cons b t ih =>
    intro n h
    rcases List.mem_cons.mp (by simpa using h) with h1 | h2
    · subst h1; simp
    · exact List.mem_cons.mpr (Or.inr (ih (n + 1) h2))

theorem find_first_enumFrom : ∀ (l : List (Int × FP)) (n i : Nat) (a : Int × FP),
    l[i]? = some a → FP.lt a.2 (FP.fin 0) = true →
    (l.take i).all (fun q => !(FP.lt q.2 (FP.fin 0))) = true →
    (l.enumFrom n).find? (fun p => FP.lt p.2.2 (FP.fin 0)) = some (n + i, a) := by
  intro l
  induction l with
  | nil => intro n i a h; simp at h
  | cons b t ih =>
    intro n i a hget hneg htake
    cases i with
    | zero =>
      rw [List.getElem?_cons_zero] at hget
      injection hget with hba
      subst hba
      simp [List.find?_cons, hneg]
    | succ j =>
      rw [List.getElem?_cons_succ] at hget
      rw [List.take_succ_cons, List.all_cons] at htake
      have hb : FP.lt b.2 (FP.fin 0) = false := by
        rcases Bool.and_eq_true_iff.mp htake with ⟨h1, _⟩
        simpa using h1
      have ht : (t.take j).all (fun q => !(FP.lt q.2 (FP.fin 0))) = true :=
        (Bool.and_eq_true_iff.mp htake).2
      rw [List.enumFrom_cons, List.find?_cons]
      simp only [hb]
      rw [ih (n + 1) j a hget hneg ht]
      congr 1
      congr 1
      omega

theorem FP.nan_sub (x : FP) : FP.sub FP.nan x = FP.nan := by
  cases x with
  | nan => rfl
  | inf b => cases b <;> rfl
  | fin q => rfl

theorem FP.lt_nan (x : FP) : FP.lt x FP.nan = false := by
  cases x with
  | nan => rfl
  | inf b => cases b <;> rfl
  | fin q => rfl

theorem FP.nan_lt (x : FP) : FP.lt FP.nan x = false := by
  cases x with
  | nan => rfl
  | inf b => cases b <;> rfl
  | fin q => rfl

theorem countP_metric_zero (P : CRVViolation → Bool) (stats : BacktestStats)
    (eh : List (Int × FP))
    (h1 : ∀ s, P (sharpeV s) = false) (h2 : ∀ m, P (boundsV m) = false)
    (h3 : ∀ a b c, P (mismatchV a b c) = false) :
    (metricViolations stats eh).countP P = 0 := by
  unfold metricViolations
  split_ifs <;> simp [h1, h2, h3]

theorem countP_lookahead_zero (P : CRVViolation → Bool) (fills : List Fill)
    (eh : List (Int × FP))
    (h1 : ∀ i t, P (fillTsV i t) = false) (h2 : ∀ i a b, P (fillOrdV i a b) = false)
    (h3 : ∀ i a b, P (eqOrdV i a b) = false) :
    (lookaheadViolations fills eh).countP P = 0 := by
  unfold lookaheadViolations
  simp [List.countP_map, Function.comp, h1, h2, h3]

theorem countP_policy_zero (P : CRVViolation → Bool) (c : PolicyConstraints)
    (stats : BacktestStats) (eh : List (Int × FP))
    (h1 : ∀ a b, P (ddConV a b) = false) (h2 : ∀ i t e L, P (levV i t e L) = false) :
    (policyViolations c stats eh).countP P = 0 := by
  unfold policyViolations ddConViolations levViolations
  rw [List.countP_append]
  rw [Nat.add_eq_zero]
  constructor
  · cases c.max_drawdown <;> simp [h1]
  · cases c.max_leverage with
    | none => simp
    | some L =>
      cases hf : eh.enum.find? (fun p => FP.lt p.2.2 (FP.fin 0)) <;> simp [hf, h2]

theorem filter_metric_zero (P : CRVViolation → Bool) (stats : BacktestStats)
    (eh : List (Int × FP))
    (h1 : ∀ s, P (sharpeV s) = false) (h2 : ∀ m, P (boundsV m) = false)
    (h3 : ∀ a b c, P (mismatchV a b c) = false) :
    (metricViolations stats eh).filter P = [] := by
  unfold metricViolations
  split_ifs <;> simp [h1, h2, h3]

theorem filter_lookahead_zero (P : CRVViolation → Bool) (fills : List Fill)
    (eh : List (Int × FP))
    (h1 : ∀ i t, P (fillTsV i t) = false) (h2 : ∀ i a b, P (fillOrdV i a b) = false)
    (h3 : ∀ i a b, P (eqOrdV i a b) = false) :
    (lookaheadViolations fills eh).filter P = [] := by
  unfold lookaheadViolations
  simp [List.filter_map, Function.comp, h1, h2, h3]

theorem countP_metric_mdvHigh (stats : BacktestStats) (eh : List (Int × FP)) :
    (metricViolations stats eh).countP
        (fun x => decide (x.rule_id = RuleId.maxDrawdownValidation ∧ x.severity = Severity.high))
      = if FP.gt (FP.abs (FP.sub stats.max_drawdown (compute_max_drawdown eh)))
          (FP.fin (1/100)) then 1 else 0 := by
  unfold metricViolations
  split_ifs <;> simp_all [sharpeV, boundsV, mismatchV]

/-- C1: for every equity history the verifier's recomputed max drawdown
equals the specification's running-peak algorithm (empty sequence yields
0), and `verify` emits a High-severity `MaxDrawdownValidation` violation
exactly when the absolute difference between the reported `max_drawdown`
and the recomputed value exceeds the fixed tolerance 0.01. -/
theorem verify_drawdown_recompute (v : CRVVerifier) (stats : BacktestStats)
    (fills : List Fill) (eh : List (Int × FP)) :
    compute_max_drawdown eh = spec_max_drawdown eh
    ∧ (reportOf (v.verify stats fills eh)).violations.countP
        (fun x => decide (x.rule_id = RuleId.maxDrawdownValidation ∧ x.severity = Severity.high))
      = if FP.gt (FP.abs (FP.sub stats.max_drawdown (compute_max_drawdown eh)))
          (FP.fin (1/100)) then 1 else 0 := by
  constructor
  · exact compute_eq_spec eh
  · rw [reportOf_verify]
    simp only [List.countP_append]
    rw [countP_metric_mdvHigh]
    rw [countP_lookahead_zero _ _ _ (by simp [fillTsV]) (by simp [fillOrdV]) (by simp [eqOrdV])]
    rw [countP_policy_zero _ _ _ _ (by simp [ddConV]) (by simp [levV])]
    omega

/-- C2: for every report returned by `verify`, `passed` is true exactly
when the violation list is empty. -/
theorem verify_passed_iff_empty (v : CRVVerifier) (stats : BacktestStats)
    (fills : List Fill) (eh : List (Int × FP)) :
    (reportOf (v.verify stats fills eh)).passed = true
      ↔ (reportOf (v.verify stats fills eh)).violations = [] := by
  unfold CRVReport.passed
  simp [List.isEmpty_iff]

/-- C7: the public entry point never fails — for every input and policy
configuration, `verify` returns a successful report. -/
theorem verify_never_fails (v : CRVVerifier) (stats : BacktestStats)
    (fills : List Fill) (eh : List (Int × FP)) :
    ∃ r : CRVReport, v.verify stats fills eh = Except.ok r :=
  ⟨_, verify_eq v stats fills eh⟩

/-- C8: `verify` is a deterministic function of its inputs and the
verifier's configuration — two calls with identical inputs on the same
verifier yield reports with identical violation lists and timestamps. -/
theorem verify_deterministic (v : CRVVerifier) (stats : BacktestStats)
    (fills : List Fill) (eh : List (Int × FP)) (r₁ r₂ : CRVReport) :
    v.verify stats fills eh = Except.ok r₁ → v.verify stats fills eh = Except.ok r₂ →
    r₁.violations = r₂.violations ∧ r₁.timestamp = r₂.timestamp := by
  intro h1 h2
  rw [h1] at h2
  injection h2 with h
  subst h
  exact ⟨rfl, rfl⟩

theorem verify_deterministic_witness :
    (CRVReport.mk 0 []).violations = (CRVReport.mk 0 []).violations
      ∧ (CRVReport.mk 0 []).timestamp = (CRVReport.mk 0 []).timestamp :=
  verify_deterministic CRVVerifier.with_defaults
    ⟨FP.fin 0, FP.fin 0, FP.fin 0, 0, FP.fin 0, FP.fin 0, FP.fin 0⟩ [] [] ⟨0, []⟩ ⟨0, []⟩
    (by
      rw [verify_eq]
      norm_num [metricViolations, lookaheadViolations, policyViolations, ddConViolations,
        levViolations, compute_max_drawdown,
        CRVVerifier.with_defaults, CRVVerifier.new, PolicyConstraints.default,
        FP.lt, FP.gt, FP.sub, FP.abs, FP.isFinite, List.enum])
    (by
      rw [verify_eq]
      norm_num [metricViolations, lookaheadViolations, policyViolations, ddConViolations,
        levViolations, compute_max_drawdown,
        CRVVerifier.with_defaults, CRVVerifier.new, PolicyConstraints.default,
        FP.lt, FP.gt, FP.sub, FP.abs, FP.isFinite, List.enum])

/-- C9: the `max_turnover` configuration field is inert — two verifiers
whose constraints agree on `max_drawdown` and `max_leverage` (differing
arbitrarily in `max_turnover`) produce identical reports on every input. -/
theorem verify_max_turnover_inert (c₁ c₂ : PolicyConstraints) (stats : BacktestStats)
    (fills : List Fill) (eh : List (Int × FP)) :
    c₁.max_drawdown = c₂.max_drawdown → c₁.max_leverage = c₂.max_leverage →
    (CRVVerifier.new c₁).verify stats fills eh = (CRVVerifier.new c₂).verify stats fills eh := by
  intro h1 h2
  rw [verify_eq, verify_eq]
  simp only [CRVVerifier.new]
  unfold policyViolations ddConViolations levViolations
  rw [h1, h2]

theorem verify_max_turnover_inert_witness :
    (CRVVerifier.new ⟨some (FP.fin (1/4)), some (FP.fin 2), some (FP.fin 5)⟩).verify
        ⟨FP.fin 0, FP.fin 0, FP.fin 0, 0, FP.fin 0, FP.fin 0, FP.fin 0⟩ [] [(1, FP.fin 1)]
      = (CRVVerifier.new ⟨some (FP.fin (1/4)), some (FP.fin 2), none⟩).verify
        ⟨FP.fin 0, FP.fin 0, FP.fin 0, 0, FP.fin 0, FP.fin 0, FP.fin 0⟩ [] [(1, FP.fin 1)] :=
  verify_max_turnover_inert _ _ _ _ _ rfl rfl

theorem countP_metric_nanMD (P : CRVViolation → Bool) (eh : List (Int × FP))
    (ie fe tr : FP) (nt : Nat) (tc sr : FP)
    (hs : ∀ s, P (sharpeV s) = false) :
    (metricViolations ⟨ie, fe, tr, nt, tc, sr, FP.nan⟩ eh).countP P = 0 := by
  unfold metricViolations
  split_ifs <;> simp_all [FP.gt, FP.nan_sub, FP.lt_nan, FP.nan_lt, FP.abs]

theorem countP_ddCon_nanMD (P : CRVViolation → Bool) (c : PolicyConstraints)
    (ie fe tr : FP) (nt : Nat) (tc sr : FP) :
    (ddConViolations c ⟨ie, fe, tr, nt, tc, sr, FP.nan⟩).countP P = 0 := by
  unfold ddConViolations
  cases c.max_drawdown <;> simp [FP.gt, FP.lt_nan]

theorem countP_lev_zero (P : CRVViolation → Bool) (c : PolicyConstraints)
    (eh : List (Int × FP)) (h2 : ∀ i t e L, P (levV i t e L) = false) :
    (levViolations c eh).countP P = 0 := by
  unfold levViolations
  cases c.max_leverage with
  | none => simp
  | some L =>
    cases hf : eh.enum.find? (fun p => FP.lt p.2.2 (FP.fin 0)) <;> simp [hf, h2]

/-- C10: when the reported `max_drawdown` is NaN, `verify` emits no
`MaxDrawdownValidation` violation (neither from the bounds check nor from
the recomputation-mismatch check) and no `MaxDrawdownConstraint`
violation, for every equity history and configuration, because every
comparison against NaN is false. -/
theorem verify_nan_drawdown_silent (v : CRVVerifier) (fills : List Fill)
    (eh : List (Int × FP)) (ie fe tr : FP) (nt : Nat) (tc sr : FP) :
    (reportOf (v.verify ⟨ie, fe, tr, nt, tc, sr, FP.nan⟩ fills eh)).violations.countP
        (fun x => decide (x.rule_id = RuleId.maxDrawdownValidation
          ∨ x.rule_id = RuleId.maxDrawdownConstraint)) = 0 := by
  rw [reportOf_verify]
  simp only [List.countP_append, policyViolations]
  rw [countP_metric_nanMD _ _ _ _ _ _ _ _ (by simp [sharpeV])]
  rw [countP_lookahead_zero _ _ _ (by simp [fillTsV]) (by simp [fillOrdV]) (by simp [eqOrdV])]
  rw [countP_ddCon_nanMD]
  rw [countP_lev_zero _ _ _ (by simp [levV])]

/-- C6: with a configured `max_drawdown` bound, `verify` emits exactly one
High-severity `MaxDrawdownConstraint` violation, carrying the observed and
limit values in evidence, exactly when the reported `max_drawdown`
strictly exceeds the bound; with the bound unset there is none. -/
theorem verify_dd_constraint (v : CRVVerifier) (stats : BacktestStats)
    (fills : List Fill) (eh : List (Int × FP)) :
    (reportOf (v.verify stats fills eh)).violations.filter
        (fun x => decide (x.rule_id = RuleId.maxDrawdownConstraint))
      = match v.constraints.max_drawdown with
        | some m =>
          if FP.gt stats.max_drawdown m then
            [⟨RuleId.maxDrawdownConstraint, Severity.high,
              Msg.ddExceedsLimit stats.max_drawdown m,
              [Ev.ddObserved stats.max_drawdown, Ev.ddLimit m]⟩]
          else []
        | none => [] := by
  rw [reportOf_verify]
  simp only [List.filter_append, policyViolations]
  rw [filter_metric_zero _ _ _ (by simp [sharpeV]) (by simp [boundsV]) (by simp [mismatchV])]
  rw [filter_lookahead_zero _ _ _ (by simp [fillTsV]) (by simp [fillOrdV]) (by simp [eqOrdV])]
  simp only [List.nil_append]
  have hlev : (levViolations v.constraints eh).filter
      (fun x => decide (x.rule_id = RuleId.maxDrawdownConstraint)) = [] := by
    unfold levViolations
    cases v.constraints.max_leverage with
    | none => simp
    | some L =>
      cases hf : eh.enum.find? (fun p => FP.lt p.2.2 (FP.fin 0)) <;> simp [hf, levV]
  rw [hlev, List.append_nil]
  unfold ddConViolations
  cases v.constraints.max_drawdown with
  | none => simp
  | some m =>
    by_cases h : FP.gt stats.max_drawdown m = true <;> simp [h, ddConV]

/-- C3 counterexample: with empty fills and empty equity history, a check
other than Sharpe plausibility and drawdown bounds can still fire — the
default-configured verifier, given a reported max drawdown of 0.5 (inside
[0,1], so the bounds check is silent), emits a `MaxDrawdownConstraint`
violation from the policy-constraint check on empty input. -/
theorem verify_empty_input_cex :
    (reportOf (CRVVerifier.with_defaults.verify
        ⟨FP.fin 100000, FP.fin 110000, FP.fin (1/10), 10, FP.fin 50, FP.fin (3/2),
          FP.fin (1/2)⟩ [] [])).violations.countP
      (fun x => decide (x.rule_id = RuleId.maxDrawdownConstraint)) = 1 := by
  rw [reportOf_verify]
  simp only [List.countP_append, policyViolations]
  rw [countP_metric_zero _ _ _ (by simp [sharpeV]) (by simp [boundsV]) (by simp [mismatchV])]
  rw [countP_lookahead_zero _ _ _ (by simp [fillTsV]) (by simp [fillOrdV]) (by simp [eqOrdV])]
  rw [countP_lev_zero _ _ _ (by simp [levV])]
  unfold ddConViolations
  norm_num [CRVVerifier.with_defaults, CRVVerifier.new, PolicyConstraints.default,
    FP.gt, FP.lt, ddConV]

/-- C3 (amended): with empty fills and empty equity history, `verify`
never fails, the report timestamp is 0, and every violation comes from a
check that reads only the stats record — Sharpe plausibility, drawdown
bounds, the drawdown recomputation mismatch (against recomputed value 0),
or the max-drawdown policy constraint; the original claim's restriction to
Sharpe plausibility and drawdown bounds alone does not hold. -/
theorem verify_empty_input_behavior (v : CRVVerifier) (stats : BacktestStats) :
    v.verify stats [] [] = Except.ok (reportOf (v.verify stats [] []))
    ∧ (reportOf (v.verify stats [] [])).timestamp = 0
    ∧ (reportOf (v.verify stats [] [])).violations.all
        (fun x => statsOnlyMsg x.message) = true := by
  refine ⟨?_, ?_, ?_⟩
  · rw [verify_eq]
    rfl
  · rw [reportOf_verify]
    rfl
  · rw [reportOf_verify]
    have hm : (metricViolations stats []).all (fun x => statsOnlyMsg x.message) = true := by
      unfold metricViolations
      split_ifs <;> simp [sharpeV, boundsV, mismatchV, statsOnlyMsg]
    have hd : (ddConViolations v.constraints stats).all
        (fun x => statsOnlyMsg x.message) = true := by
      unfold ddConViolations
      cases v.constraints.max_drawdown with
      | none => simp
      | some m =>
        by_cases h : FP.gt stats.max_drawdown m = true <;>
          simp [h, ddConV, statsOnlyMsg]
    have hl : levViolations v.constraints [] = [] := by
      unfold levViolations
      cases v.constraints.max_leverage <;> rfl
    rw [show lookaheadViolations [] [] = [] from rfl]
    simp [List.all_append, policyViolations, hm, hd, hl]

theorem countP_lookahead_fillOrd (fills : List Fill) (eh : List (Int × FP)) :
    (lookaheadViolations fills eh).countP
        (fun x => decide (x.rule_id = RuleId.lookaheadBias ∧ x.severity = Severity.critical
          ∧ x.message = Msg.fillsNotChronological))
      = adjInversions (fills.map Fill.timestamp) := by
  unfold lookaheadViolations
  rw [List.countP_append, List.countP_append]
  simp [Function.comp_def, fillTsV, fillOrdV, eqOrdV]
  rw [← List.countP_eq_length_filter, ← List.drop_one]
  exact (countP_enum (fun pr => decide (pr.1.timestamp < pr.2.timestamp))
      ((fills.drop 1).zip fills)).trans (ordPairs_countP Fill.timestamp fills)

theorem countP_lookahead_eqOrd (fills : List Fill) (eh : List (Int × FP)) :
    (lookaheadViolations fills eh).countP
        (fun x => decide (x.rule_id = RuleId.lookaheadBias ∧ x.severity = Severity.critical
          ∧ x.message = Msg.equityNotChronological))
      = adjInversions (eh.map Prod.fst) := by
  unfold lookaheadViolations
  rw [List.countP_append, List.countP_append]
  simp [Function.comp_def, fillTsV, fillOrdV, eqOrdV]
  rw [← List.countP_eq_length_filter, ← List.drop_one]
  exact (countP_enum (fun pr => decide (pr.1.1 < pr.2.1))
      ((eh.drop 1).zip eh)).trans (ordPairs_countP Prod.fst eh)

theorem countP_ddCon_zero (P : CRVViolation → Bool) (c : PolicyConstraints)
    (stats : BacktestStats) (h1 : ∀ a b, P (ddConV a b) = false) :
    (ddConViolations c stats).countP P = 0 := by
  unfold ddConViolations
  cases c.max_drawdown with
  | none => rfl
  | some m => by_cases h : FP.gt stats.max_drawdown m = true <;> simp [h, h1]

/-- C4: `verify` emits one Critical `LookaheadBias` ordering violation per
adjacent inverted pair — the number of fill-ordering violations equals the
number of adjacent timestamp inversions in the fills sequence, likewise
for the equity history, and a sequence with non-decreasing timestamps has
zero inversions and hence zero ordering violations. -/
theorem verify_ordering_counts (v : CRVVerifier) (stats : BacktestStats)
    (fills : List Fill) (eh : List (Int × FP)) :
    (reportOf (v.verify stats fills eh)).violations.countP
        (fun x => decide (x.rule_id = RuleId.lookaheadBias ∧ x.severity = Severity.critical
          ∧ x.message = Msg.fillsNotChronological))
      = adjInversions (fills.map Fill.timestamp)
    ∧ (reportOf (v.verify stats fills eh)).violations.countP
        (fun x => decide (x.rule_id = RuleId.lookaheadBias ∧ x.severity = Severity.critical
          ∧ x.message = Msg.equityNotChronological))
      = adjInversions (eh.map Prod.fst)
    ∧ (∀ ts : List Int, List.Chain' (fun a b => a ≤ b) ts → adjInversions ts = 0) := by
  refine ⟨?_, ?_, fun ts h => adjInversions_of_chain ts h⟩
  · rw [reportOf_verify]
    simp only [List.countP_append]
    rw [countP_metric_zero _ _ _ (by simp [sharpeV]) (by simp [boundsV]) (by simp [mismatchV])]
    rw [countP_policy_zero _ _ _ _ (by simp [ddConV]) (by simp [levV])]
    rw [countP_lookahead_fillOrd]
    omega
  · rw [reportOf_verify]
    simp only [List.countP_append]
    rw [countP_metric_zero _ _ _ (by simp [sharpeV]) (by simp [boundsV]) (by simp [mismatchV])]
    rw [countP_policy_zero _ _ _ _ (by simp [ddConV]) (by simp [levV])]
    rw [countP_lookahead_eqOrd]
    omega

theorem verify_ordering_counts_witness :
    adjInversions ([1, 2, 2, 3] : List Int) = 0 :=
  (verify_ordering_counts CRVVerifier.with_defaults
      ⟨FP.fin 0, FP.fin 0, FP.fin 0, 0, FP.fin 0, FP.fin 0, FP.fin 0⟩ [] []).2.2
    [1, 2, 2, 3]
    (List.Chain.cons (by decide) (List.Chain.cons (by decide)
      (List.Chain.cons (by decide) List.Chain.nil)))

theorem countP_lev_count (c : PolicyConstraints) (eh : List (Int × FP)) :
    (levViolations c eh).countP (fun x => decide (x.rule_id = RuleId.maxLeverageConstraint))
      = match c.max_leverage with
        | some _ => if eh.any (fun q => FP.lt q.2 (FP.fin 0)) then 1 else 0
        | none => 0 := by
  unfold levViolations
  cases c.max_leverage with
  | none => simp
  | some L =>
    cases hf : eh.enum.find? (fun p => FP.lt p.2.2 (FP.fin 0)) with
    | none =>
      have hany : eh.any (fun q => FP.lt q.2 (FP.fin 0)) = false := by
        rw [List.any_eq_false]
        intro q hq
        rcases mem_enumFrom_of_mem q eh 0 hq with ⟨i, hi⟩
        have := List.find?_eq_none.mp hf (i, q) (by simpa [List.enum] using hi)
        simpa using this
      simp [hf, hany]
    | some p =>
      have hp := List.find?_some hf
      have hmem : p ∈ eh.enum := List.mem_of_find?_eq_some hf
      have hmem2 : p.2 ∈ eh := snd_mem_of_mem_enumFrom p eh 0 (by simpa [List.enum] using hmem)
      have hany : eh.any (fun q => FP.lt q.2 (FP.fin 0)) = true :=
        List.any_eq_true.mpr ⟨p.2, hmem2, by simpa using hp⟩
      simp [hf, hany, levV]

/-- C5: with a configured max-leverage bound, `verify` emits exactly one
Critical `MaxLeverageConstraint` violation when the equity history
contains a negative point (even when several are negative), and that
single violation cites the first such point; with the bound unset or all
equity non-negative, no such violation is emitted. -/
theorem verify_solvency_single (v : CRVVerifier) (stats : BacktestStats)
    (fills : List Fill) (eh : List (Int × FP)) :
    ((reportOf (v.verify stats fills eh)).violations.countP
        (fun x => decide (x.rule_id = RuleId.maxLeverageConstraint))
      = match v.constraints.max_leverage with
        | some _ => if eh.any (fun q => FP.lt q.2 (FP.fin 0)) then 1 else 0
        | none => 0)
    ∧ (∀ (L : FP) (i : Nat) (a : Int × FP),
        v.constraints.max_leverage = some L →
        eh[i]? = some a → FP.lt a.2 (FP.fin 0) = true →
        (eh.take i).all (fun q => !(FP.lt q.2 (FP.fin 0))) = true →
        (reportOf (v.verify stats fills eh)).violations.filter
            (fun x => decide (x.rule_id = RuleId.maxLeverageConstraint))
          = [levV i a.1 a.2 L]) := by
  constructor
  · rw [reportOf_verify]
    simp only [List.countP_append, policyViolations]
    rw [countP_metric_zero _ _ _ (by simp [sharpeV]) (by simp [boundsV]) (by simp [mismatchV])]
    rw [countP_lookahead_zero _ _ _ (by simp [fillTsV]) (by simp [fillOrdV]) (by simp [eqOrdV])]
    rw [countP_ddCon_zero _ _ _ (by simp [ddConV])]
    rw [countP_lev_count]
    simp
  · intro L i a hL hget hneg htake
    rw [reportOf_verify]
    simp only [List.filter_append, policyViolations]
    rw [filter_metric_zero _ _ _ (by simp [sharpeV]) (by simp [boundsV]) (by simp [mismatchV])]
    rw [filter_lookahead_zero _ _ _ (by simp [fillTsV]) (by simp [fillOrdV]) (by simp [eqOrdV])]
    have hdd : (ddConViolations v.constraints stats).filter
        (fun x => decide (x.rule_id = RuleId.maxLeverageConstraint)) = [] := by
      unfold ddConViolations
      cases v.constraints.max_drawdown with
      | none => simp
      | some m =>
        by_cases h : FP.gt stats.max_drawdown m = true <;> simp [h, ddConV]
    rw [hdd]
    have hfind := find_first_enumFrom eh 0 i a hget hneg htake
    unfold levViolations
    rw [hL]
    rw [show eh.enum = eh.enumFrom 0 from rfl, hfind]
    simp [levV]

theorem verify_solvency_single_witness :
    (reportOf (CRVVerifier.with_defaults.verify
        ⟨FP.fin 0, FP.fin 0, FP.fin 0, 0, FP.fin 0, FP.fin 0, FP.fin 0⟩ []
        [(1, FP.fin 5), (2, FP.fin (-3)), (3, FP.fin (-7))])).violations.filter
        (fun x => decide (x.rule_id = RuleId.maxLeverageConstraint))
      = [levV 1 2 (FP.fin (-3)) (FP.fin 2)] :=
  (verify_solvency_single CRVVerifier.with_defaults
      ⟨FP.fin 0, FP.fin 0, FP.fin 0, 0, FP.fin 0, FP.fin 0, FP.fin 0⟩ []
      [(1, FP.fin 5), (2, FP.fin (-3)), (3, FP.fin (-7))]).2
    (FP.fin 2) 1 (2, FP.fin (-3)) rfl rfl (by norm_num [FP.lt]) (by norm_num [FP.lt])
